import Mathlib

/-!
Shallow embedding of the publish/subscribe event-dispatch engine of this
repository. The hand-written emitter lives in
`src/L5_events_and_emitters/emitter.js`:

  function Emitter() { this.events = {} }
  Emitter.prototype.on = function(type, eventListener) {
      this.events[type] = this.events[type] || [];
      this.events[type].push(eventListener);
  }
  Emitter.prototype.emit = function(type) {
      if(this.events[type]) {
          this.events[type].forEach(listner => { listner(); });
      }
  }

Listener callbacks are opaque JS function references compared by identity;
we model them by an abstract type `L`. The `events` object maps a string
key either to an array of listeners (`some arr`) or is missing the key
(`none`, JS `undefined`).

The spec's EventRegistry additionally describes `registerOnce`,
`unregister` and once-removal during `fire`; those operations are not
implemented in the source emitter and are modelled from the spec where a
claim needs them (each such definition carries a doc comment starting
`Modelled from the spec:`).
-/

/-- The mutable state of an `Emitter` instance: `this.events`, a JS object
mapping an event name to the array of listeners registered for it. A key
never assigned reads as `undefined`, i.e. `none`. -/
structure Emitter (L : Type) where
  events : String → Option (List L)

/-- `function Emitter() { this.events = {} }`: a fresh emitter starts with
an empty object. -/
def Emitter.empty {L : Type} : Emitter L := ⟨fun _ => none⟩

/-- `Emitter.prototype.on`: `this.events[type] = this.events[type] || [];`
creates the array when the key is absent, then
`this.events[type].push(eventListener)` appends the listener at the end. -/
def Emitter.on {L : Type} (st : Emitter L) (type : String) (l : L) : Emitter L :=
  ⟨fun t => if t = type then some ((st.events type).getD [] ++ [l]) else st.events t⟩

/-- `Emitter.prototype.emit` observed with listeners that neither mutate
the registry nor throw: the sequence of callbacks invoked, in order.
`if (this.events[type])` skips dispatch for an absent key, and `forEach`
invokes the array elements in index order. -/
def Emitter.emit {L : Type} (st : Emitter L) (type : String) : List L :=
  match st.events type with
  | none => []
  | some arr => arr

/-- Reading index `k` of a JS array: `some` when `k` is within the current
length, `undefined` (`none`) past the end. -/
def listAt {L : Type} : List L → Nat → Option L
  | [], _ => none
  | x :: _, 0 => some x
  | _ :: xs, k + 1 => listAt xs k

/-- Observable behaviour of one listener callback when `emit` invokes it as
`listner()`: the `on` registrations its body performs on the same emitter,
and whether it throws (carrying the thrown message). -/
structure LBeh (L : Type) where
  regs : List (String × L)
  throws : Option String

/-- Replay a listener body's `on` calls against the emitter state. -/
def Emitter.applyRegs {L : Type} (st : Emitter L) : List (String × L) → Emitter L
  | [] => st
  | (t, l) :: rest => (st.on t l).applyRegs rest

/-- The `forEach` loop inside `emit`, with ECMAScript semantics: the range
of indices visited is fixed from the array length read before the first
callback runs, so elements appended by a listener during the pass are not
visited in that same pass. `fuel` is the number of iterations remaining
and `k` the current index into the live array. Returns the final emitter
state, the listeners invoked in order, and the error that propagated out
of `emit` if an invoked listener threw (which aborts the pass). -/
def Emitter.forEachFrom {L : Type} (beh : L → LBeh L) (type : String) :
    Nat → Nat → Emitter L → Emitter L × List L × Option String
  | 0, _, st => (st, [], none)
  | fuel + 1, k, st =>
    match listAt ((st.events type).getD []) k with
    | none => (st, [], none)
    | some l =>
      let st1 := st.applyRegs (beh l).regs
      match (beh l).throws with
      | some msg => (st1, [l], some msg)
      | none =>
        let r := Emitter.forEachFrom beh type fuel (k + 1) st1
        (r.1, l :: r.2.1, r.2.2)

/-- `Emitter.prototype.emit` with effectful listeners: look up
`this.events[type]`; when the key is present, run the `forEach` loop over
its array, the iteration count being the array's length at dispatch
start. -/
def Emitter.emitRun {L : Type} (st : Emitter L) (beh : L → LBeh L) (type : String) :
    Emitter L × List L × Option String :=
  match st.events type with
  | none => (st, [], none)
  | some arr => Emitter.forEachFrom beh type arr.length 0 st

/-- The calls the `forEach` body performs, each paired with the argument
tuple handed to the listener: the body invokes `listner()`, i.e. with zero
arguments. -/
def callsOf {L V : Type} : List L → List (L × List V)
  | [] => []
  | l :: rest => (l, []) :: callsOf rest

/-- `emit` as invoked with extra arguments, `emitter.emit(type, a, b, c)`:
the source signature is `function(type)`, so every actual argument past
`type` is ignored by the body and each listener is called as `listner()`.
Returns the calls performed in order, each with the argument tuple the
listener received. -/
def Emitter.emitCalls {L V : Type} (st : Emitter L) (type : String) (args : List V) :
    List (L × List V) :=
  match st.events type with
  | none => []
  | some arr => callsOf arr

/-- Every key present in `this.events` holds a non-empty array: a key is
only ever created by `on`, together with its first listener. -/
def Emitter.Inv {L : Type} (st : Emitter L) : Prop :=
  ∀ t arr, st.events t = some arr → arr ≠ []

/-- Dispatch over an explicit snapshot list: invoke each listener in
order, threading its registrations through the state and stopping at the
first one that throws. The fuel-indexed `forEach` loop of `emitRun`
coincides with this structural recursion over the array read at dispatch
start, because listeners can only append (`on` is the sole mutator). -/
def dispatchList {L : Type} (beh : L → LBeh L) (st : Emitter L) :
    List L → Emitter L × List L × Option String
  | [] => (st, [], none)
  | l :: rest =>
    let st1 := st.applyRegs (beh l).regs
    match (beh l).throws with
    | some msg => (st1, [l], some msg)
    | none =>
      let r := dispatchList beh st1 rest
      (r.1, l :: r.2.1, r.2.2)

/-- Modelled from the spec: a listener entry `{ callback, once }` of the
EventRegistry data model (spec section 3). The source emitter stores bare
callbacks and implements no once flag, so the entry shape is taken from
the spec's words. -/
structure Entry (L : Type) where
  callback : L
  once : Bool

/-- Modelled from the spec: the EventRegistry mapping from event
identifier to its ordered sequence of listener entries; an identifier
with no registrations maps to the empty sequence. -/
structure Registry (L : Type) where
  entries : String → List (Entry L)

/-- Modelled from the spec: a freshly created registry has no entries. -/
def Registry.empty {L : Type} : Registry L := ⟨fun _ => []⟩

/-- Modelled from the spec: `register(eventId, callback)` appends the
entry `{callback, once:false}` at the end of the sequence for `eventId`
(spec section 4.1). -/
def Registry.register {L : Type} (st : Registry L) (e : String) (f : L) : Registry L :=
  ⟨fun t => if t = e then st.entries e ++ [⟨f, false⟩] else st.entries t⟩

/-- Modelled from the spec: `registerOnce(eventId, callback)` is
`register` with the entry marked `once:true` (spec section 4.1); this
operation is absent from the source emitter. -/
def Registry.registerOnce {L : Type} (st : Registry L) (e : String) (f : L) : Registry L :=
  ⟨fun t => if t = e then st.entries e ++ [⟨f, true⟩] else st.entries t⟩

/-- Modelled from the spec: the removal step of `unregister` — remove the
first entry whose callback is identical to `f`, scanning in insertion
order, and report whether a match was found (spec section 4.1). -/
def removeFirst {L : Type} [DecidableEq L] (f : L) : List (Entry L) → List (Entry L) × Bool
  | [] => ([], false)
  | en :: rest =>
    if en.callback = f then (rest, true)
    else
      let r := removeFirst f rest
      (en :: r.1, r.2)

/-- Modelled from the spec: `unregister(eventId, callback)` removes the
first matching entry by callback identity and returns whether one was
removed; an unknown identifier or callback is a no-op returning false
(spec section 4.1); this operation is absent from the source emitter. -/
def Registry.unregister {L : Type} [DecidableEq L] (st : Registry L) (e : String) (f : L) :
    Registry L × Bool :=
  let r := removeFirst f (st.entries e)
  (⟨fun t => if t = e then r.1 else st.entries t⟩, r.2)

/-- Modelled from the spec: `fire(eventId)` invokes every entry present at
the moment dispatch begins, in insertion order, and after the pass removes
from the live sequence every invoked entry marked `once:true` (spec
section 4.1, steps 1 to 3). Returns the new registry state and the
callbacks invoked in order. -/
def Registry.fire {L : Type} (st : Registry L) (e : String) : Registry L × List L :=
  (⟨fun t => if t = e then (st.entries e).filter (fun en => !en.once) else st.entries t⟩,
   (st.entries e).map (fun en => en.callback))

/-- Claim C1: after `on(e, f1)` followed by `on(e, f2)`, `emit(e)` invokes
the previously registered listeners first and then `f1` strictly before
`f2`; listeners are invoked in insertion order because `on` appends at the
end and `emit` walks the array in index order. -/
theorem C1_insertion_order {L : Type} (st : Emitter L) (e : String) (f1 f2 : L) :
    ((st.on e f1).on e f2).emit e = st.emit e ++ [f1, f2] := by
  simp only [Emitter.on, Emitter.emit]
  cases h : st.events e <;> simp [h]

theorem callsOf_args_mem {L V : Type} {p : L × List V} :
    ∀ {xs : List L}, p ∈ callsOf xs → p.2 = [] ∧ p.1 ∈ xs
  | [], h => by simp [callsOf] at h
  | x :: rest, h => by
    simp only [callsOf, List.mem_cons] at h
    rcases h with h | h
    · subst h; simp
    · rcases callsOf_args_mem h with ⟨h1, h2⟩
      exact ⟨h1, List.mem_cons_of_mem _ h2⟩

/-- Claim C2, counterexample: with the single listener token `0`
registered for `"evt"`, `emit("evt", 1, 2, 3)` performs the one call
`(0, [])` — the listener is invoked with zero arguments, not with the
arguments `(1, 2, 3)` that were passed to `emit`. -/
theorem C2_args_counterexample :
    ((Emitter.empty (L := Nat)).on "evt" 0).emitCalls "evt" ([1, 2, 3] : List Nat)
        = [(0, ([] : List Nat))] ∧
    ((Emitter.empty (L := Nat)).on "evt" 0).emitCalls "evt" ([1, 2, 3] : List Nat)
        ≠ [(0, ([1, 2, 3] : List Nat))] := by
  constructor <;> simp [Emitter.empty, Emitter.on, Emitter.emitCalls, callsOf]

/-- Claim C2 as amended: the arguments passed to `emit` beyond the event
name are discarded — the calls performed do not depend on them, and every
listener invoked in the pass receives the empty argument tuple (while the
listeners invoked are exactly the registered ones, in order). -/
theorem C2_args_amended {L V : Type} (st : Emitter L) (e : String) (args : List V) :
    st.emitCalls e args = st.emitCalls e ([] : List V) ∧
    ∀ p ∈ st.emitCalls e args, p.2 = ([] : List V) ∧ p.1 ∈ st.emit e := by
  refine ⟨rfl, ?_⟩
  intro p hp
  simp only [Emitter.emitCalls] at hp
  simp only [Emitter.emit]
  cases h : st.events e with
  | none => rw [h] at hp; simp at hp
  | some arr => rw [h] at hp; exact callsOf_args_mem hp

theorem C2_args_amended_witness :
    (((Emitter.empty (L := Nat)).on "evt" 0).emitCalls "evt" ([1, 2, 3] : List Nat)
        = ((Emitter.empty (L := Nat)).on "evt" 0).emitCalls "evt" ([] : List Nat)) ∧
    ((0, ([] : List Nat)) ∈
        ((Emitter.empty (L := Nat)).on "evt" 0).emitCalls "evt" ([1, 2, 3] : List Nat)) ∧
    (((0, ([] : List Nat)) : Nat × List Nat).2 = ([] : List Nat) ∧
        (0 : Nat) ∈ ((Emitter.empty (L := Nat)).on "evt" 0).emit "evt") :=
  ⟨(C2_args_amended ((Emitter.empty (L := Nat)).on "evt" 0) "evt" [1, 2, 3]).1,
   by simp [Emitter.empty, Emitter.on, Emitter.emitCalls, callsOf],
   (C2_args_amended ((Emitter.empty (L := Nat)).on "evt" 0) "evt" [1, 2, 3]).2
     (0, ([] : List Nat))
     (by simp [Emitter.empty, Emitter.on, Emitter.emitCalls, callsOf])⟩

/-- Claim C3: `registerOnce(e, f)` followed by two `fire(e)` calls invokes
`f` exactly once in total — the first pass invokes it and removes the
entry, the second pass invokes nothing, and the sequence for `e` ends
empty so no later dispatch can invoke it either. -/
theorem C3_once_semantics {L : Type} (e : String) (f : L) :
    ((((Registry.empty (L := L)).registerOnce e f).fire e).2 = [f]) ∧
    (((((Registry.empty (L := L)).registerOnce e f).fire e).1.fire e).2 = []) ∧
    (((((Registry.empty (L := L)).registerOnce e f).fire e).1.fire e).1.entries e = []) := by
  refine ⟨?_, ?_, ?_⟩ <;>
    simp [Registry.empty, Registry.registerOnce, Registry.fire]

/-- Claim C4: from a fresh registry, `register(e, f)` then
`unregister(e, f)` returns true and `fire(e)` afterwards invokes nothing;
a second `unregister(e, f)` for the already-removed reference returns
false; `unregister` on an identifier with no registrations is a no-op
returning false, as is `unregister` with a callback `g` never registered;
and with `f` registered twice, one `unregister` removes only one entry. -/
theorem C4_unregister {L : Type} [DecidableEq L] (e : String) (f g : L) (hgf : g ≠ f) :
    ((((Registry.empty (L := L)).register e f).unregister e f).2 = true) ∧
    (((((Registry.empty (L := L)).register e f).unregister e f).1.fire e).2 = []) ∧
    (((((Registry.empty (L := L)).register e f).unregister e f).1.unregister e f).2 = false) ∧
    (((Registry.empty (L := L)).unregister e f).2 = false) ∧
    (∀ t, ((Registry.empty (L := L)).unregister e f).1.entries t = []) ∧
    ((((Registry.empty (L := L)).register e f).unregister e g).2 = false) ∧
    (((((Registry.empty (L := L)).register e f).register e f).unregister e f).1.entries e
        = [⟨f, false⟩]) := by
  refine ⟨?_, ?_, ?_, ?_, ?_, ?_, ?_⟩ <;>
    simp [Registry.empty, Registry.register, Registry.unregister, Registry.fire,
      removeFirst, Ne.symm hgf]

theorem C4_unregister_witness :
    ((1 : Nat) ≠ 0) ∧
    ((((Registry.empty (L := Nat)).register "evt" 0).unregister "evt" 0).2 = true) :=
  ⟨by decide, (C4_unregister "evt" 0 1 (by decide)).1⟩

/-- Claim C5: `emit` on an identifier with zero registered listeners —
key absent from `this.events`, or present with an empty array — invokes
no listener, leaves the state unchanged and propagates no error, whatever
the listeners registered elsewhere would do. -/
theorem C5_no_listeners {L : Type} (st : Emitter L) (beh : L → LBeh L) (e : String)
    (h : (st.events e).getD [] = []) :
    st.emitRun beh e = (st, [], none) := by
  unfold Emitter.emitRun
  cases hev : st.events e with
  | none => rfl
  | some arr =>
    rw [hev] at h
    simp only [Option.getD_some] at h
    subst h
    rfl

theorem C5_no_listeners_witness :
    (((Emitter.empty (L := Nat)).events "evt").getD [] = []) ∧
    ((Emitter.empty (L := Nat)).emitRun (fun _ => ⟨[], none⟩) "evt"
        = (Emitter.empty, [], none)) :=
  ⟨rfl, C5_no_listeners Emitter.empty (fun _ => ⟨[], none⟩) "evt" rfl⟩

theorem listAt_eq_getElem? {L : Type} : ∀ (xs : List L) (k : Nat), listAt xs k = xs[k]?
  | [], _ => by simp [listAt]
  | _ :: _, 0 => by simp [listAt]
  | _ :: xs, k + 1 => by simp [listAt, listAt_eq_getElem? xs k]

theorem applyRegs_grows {L : Type} (t : String) :
    ∀ (rs : List (String × L)) (st : Emitter L),
      ((st.events t).getD []) <+: (((st.applyRegs rs).events t).getD [])
  | [], st => List.prefix_refl _
  | (u, l) :: rest, st => by
    have h1 : ((st.events t).getD []) <+: (((st.on u l).events t).getD []) := by
      simp only [Emitter.on]
      by_cases h : t = u
      · subst h; simp
      · simp [h]
    exact h1.trans (applyRegs_grows t rest (st.on u l))

theorem forEachFrom_eq_dispatch {L : Type} (beh : L → LBeh L) (type : String) (arr0 : List L) :
    ∀ (fuel k : Nat) (st : Emitter L),
      arr0 <+: ((st.events type).getD []) → fuel + k = arr0.length →
      Emitter.forEachFrom beh type fuel k st = dispatchList beh st (arr0.drop k)
  | 0, k, st, _, hlen => by
    have hk : arr0.length ≤ k := by omega
    rw [List.drop_eq_nil_of_le hk]
    rfl
  | fuel + 1, k, st, hpre, hlen => by
    have hk : k < arr0.length := by omega
    have hlive : listAt ((st.events type).getD []) k = some arr0[k] := by
      obtain ⟨tail, htail⟩ := hpre
      rw [listAt_eq_getElem?, ← htail, List.getElem?_append_left hk,
        List.getElem?_eq_getElem hk]
    have hdrop : arr0.drop k = arr0[k] :: arr0.drop (k + 1) :=
      List.drop_eq_getElem_cons hk
    rw [hdrop]
    simp only [Emitter.forEachFrom, hlive, dispatchList]
    cases hth : (beh arr0[k]).throws with
    | some msg => rfl
    | none =>
      have hrec := forEachFrom_eq_dispatch beh type arr0 fuel (k + 1)
        (st.applyRegs (beh arr0[k]).regs)
        (hpre.trans (applyRegs_grows type _ st)) (by omega)
      simp only [hrec]

theorem emitRun_eq_dispatch {L : Type} (st : Emitter L) (beh : L → LBeh L) (type : String) :
    st.emitRun beh type = dispatchList beh st ((st.events type).getD []) := by
  unfold Emitter.emitRun
  cases hev : st.events type with
  | none => rfl
  | some arr =>
    simp only [Option.getD_some]
    have := forEachFrom_eq_dispatch beh type arr arr.length 0 st
      (by rw [hev]; exact List.prefix_refl _) (by omega)
    rw [this, List.drop_zero]

theorem emit_on_on {L : Type} (st : Emitter L) (e : String) (f1 f2 : L) :
    ((st.on e f1).on e f2).emit e = st.emit e ++ [f1, f2] := by
  simp only [Emitter.on, Emitter.emit]
  cases h : st.events e <;> simp [h]

/-- Claim C6: with three listeners registered for `e`, where the first
runs normally and the second throws, `emit(e)` invokes the first, the
second runs and its error propagates out of `emit`, and the third —
whatever its behaviour would have been — is never invoked; the registry
state is left untouched. -/
theorem C6_throw_aborts {L : Type} (e : String) (f1 f2 f3 : L) (beh : L → LBeh L)
    (msg : String) (h1 : beh f1 = ⟨[], none⟩) (h2 : beh f2 = ⟨[], some msg⟩) :
    ((((Emitter.empty (L := L)).on e f1).on e f2).on e f3).emitRun beh e
      = ((((Emitter.empty (L := L)).on e f1).on e f2).on e f3, [f1, f2], some msg) := by
  rw [emitRun_eq_dispatch]
  have hev : ((((((Emitter.empty (L := L)).on e f1).on e f2).on e f3).events e).getD [])
      = [f1, f2, f3] := by
    simp [Emitter.empty, Emitter.on]
  rw [hev]
  simp [dispatchList, h1, h2, Emitter.applyRegs]

theorem C6_throw_aborts_witness :
    ((fun l => if l = 1 then (⟨[], some "boom"⟩ : LBeh Nat) else ⟨[], none⟩) 0
        = (⟨[], none⟩ : LBeh Nat)) ∧
    ((fun l => if l = 1 then (⟨[], some "boom"⟩ : LBeh Nat) else ⟨[], none⟩) 1
        = (⟨[], some "boom"⟩ : LBeh Nat)) ∧
    ((((Emitter.empty (L := Nat)).on "evt" 0).on "evt" 1).on "evt" 2).emitRun
        (fun l => if l = 1 then (⟨[], some "boom"⟩ : LBeh Nat) else ⟨[], none⟩) "evt"
      = ((((Emitter.empty (L := Nat)).on "evt" 0).on "evt" 1).on "evt" 2,
          [0, 1], some "boom") :=
  ⟨rfl, rfl,
    C6_throw_aborts "evt" 0 1 2
      (fun l => if l = 1 then (⟨[], some "boom"⟩ : LBeh Nat) else ⟨[], none⟩)
      "boom" rfl rfl⟩

/-- Claim C7: a listener `f` that registers a new listener `g` for the
same event during a `emit(e)` pass does not get `g` invoked in that pass —
the `forEach` range is fixed before the first callback runs — but the next
`emit(e)` call does invoke `g`. -/
theorem C7_no_same_pass {L : Type} (e : String) (f g : L) (beh : L → LBeh L)
    (hgf : g ≠ f) (hf : beh f = ⟨[(e, g)], none⟩) (hg : beh g = ⟨[], none⟩) :
    ((((Emitter.empty (L := L)).on e f).emitRun beh e).2.1 = [f]) ∧
    (g ∉ (((Emitter.empty (L := L)).on e f).emitRun beh e).2.1) ∧
    (g ∈ ((((Emitter.empty (L := L)).on e f).emitRun beh e).1.emitRun beh e).2.1) := by
  have hst0 : (((Emitter.empty (L := L)).on e f).events e).getD [] = [f] := by
    simp [Emitter.empty, Emitter.on]
  have h1 : ((Emitter.empty (L := L)).on e f).emitRun beh e
      = (((Emitter.empty (L := L)).on e f).on e g, [f], none) := by
    rw [emitRun_eq_dispatch, hst0]
    simp [dispatchList, hf, Emitter.applyRegs]
  have hst1 : ((((Emitter.empty (L := L)).on e f).on e g).events e).getD [] = [f, g] := by
    simp [Emitter.empty, Emitter.on]
  have h2 : (((Emitter.empty (L := L)).on e f).on e g).emitRun beh e
      = ((((Emitter.empty (L := L)).on e f).on e g).on e g, [f, g], none) := by
    rw [emitRun_eq_dispatch, hst1]
    simp [dispatchList, hf, hg, Emitter.applyRegs]
  refine ⟨by rw [h1], by rw [h1]; simp [hgf], ?_⟩
  rw [h1]
  simp only [h2]
  simp

theorem C7_no_same_pass_witness :
    ((1 : Nat) ≠ 0) ∧
    ((fun l => if l = 0 then (⟨[("evt", 1)], none⟩ : LBeh Nat) else ⟨[], none⟩) 0
        = (⟨[("evt", 1)], none⟩ : LBeh Nat)) ∧
    ((fun l => if l = 0 then (⟨[("evt", 1)], none⟩ : LBeh Nat) else ⟨[], none⟩) 1
        = (⟨[], none⟩ : LBeh Nat)) ∧
    (((((Emitter.empty (L := Nat)).on "evt" 0).emitRun
          (fun l => if l = 0 then (⟨[("evt", 1)], none⟩ : LBeh Nat) else ⟨[], none⟩)
          "evt").2.1 = [0]) ∧
      ((1 : Nat) ∉ (((Emitter.empty (L := Nat)).on "evt" 0).emitRun
          (fun l => if l = 0 then (⟨[("evt", 1)], none⟩ : LBeh Nat) else ⟨[], none⟩)
          "evt").2.1) ∧
      ((1 : Nat) ∈ ((((Emitter.empty (L := Nat)).on "evt" 0).emitRun
          (fun l => if l = 0 then (⟨[("evt", 1)], none⟩ : LBeh Nat) else ⟨[], none⟩)
          "evt").1.emitRun
          (fun l => if l = 0 then (⟨[("evt", 1)], none⟩ : LBeh Nat) else ⟨[], none⟩)
          "evt").2.1)) :=
  ⟨by decide, rfl, rfl,
    C7_no_same_pass "evt" 0 1
      (fun l => if l = 0 then (⟨[("evt", 1)], none⟩ : LBeh Nat) else ⟨[], none⟩)
      (by decide) rfl rfl⟩

/-- Claim C8: registering the same callback reference twice for the same
event creates two independent entries — `push` appends unconditionally, no
duplicate suppression — so one `emit(e)` invokes that callback exactly two
more times than it would have before the two registrations. -/
theorem C8_duplicates {L : Type} [DecidableEq L] (st : Emitter L) (e : String) (f : L) :
    (((st.on e f).on e f).emit e).count f = (st.emit e).count f + 2 := by
  rw [emit_on_on, List.count_append]
  simp [List.count_cons]

theorem inv_on {L : Type} {st : Emitter L} (h : st.Inv) (e : String) (f : L) :
    (st.on e f).Inv := by
  intro t arr harr
  simp only [Emitter.on] at harr
  by_cases ht : t = e
  · rw [if_pos ht] at harr
    cases harr
    simp
  · rw [if_neg ht] at harr
    exact h t arr harr

theorem inv_applyRegs {L : Type} :
    ∀ (rs : List (String × L)) (st : Emitter L), st.Inv → (st.applyRegs rs).Inv
  | [], _, h => h
  | (u, l) :: rest, st, h => inv_applyRegs rest (st.on u l) (inv_on h u l)

theorem inv_dispatchList {L : Type} (beh : L → LBeh L) :
    ∀ (xs : List L) (st : Emitter L), st.Inv → (dispatchList beh st xs).1.Inv
  | [], _, h => h
  | l :: rest, st, h => by
    have h1 : (st.applyRegs (beh l).regs).Inv := inv_applyRegs _ st h
    cases hth : (beh l).throws with
    | some msg => simpa [dispatchList, hth] using h1
    | none =>
      have := inv_dispatchList beh rest (st.applyRegs (beh l).regs) h1
      simpa [dispatchList, hth] using this

/-- Claim C9: the non-empty-sequence invariant — every key present in
`this.events` holds a non-empty array — holds for a fresh emitter, is
preserved by `on` (a key is created only together with its first
listener), and is preserved by `emit`, including when the invoked
listeners themselves perform registrations during the pass. -/
theorem C9_invariant {L : Type} :
    ((Emitter.empty (L := L)).Inv) ∧
    (∀ (st : Emitter L) (e : String) (f : L), st.Inv → (st.on e f).Inv) ∧
    (∀ (st : Emitter L) (beh : L → LBeh L) (e : String),
      st.Inv → (st.emitRun beh e).1.Inv) := by
  refine ⟨?_, ?_, ?_⟩
  · intro t arr h
    cases h
  · intro st e f h
    exact inv_on h e f
  · intro st beh e h
    rw [emitRun_eq_dispatch]
    exact inv_dispatchList beh _ st h

theorem C9_invariant_witness :
    ((Emitter.empty (L := Nat)).Inv) ∧
    (((Emitter.empty (L := Nat)).on "evt" 0).Inv) :=
  ⟨C9_invariant.1,
    C9_invariant.2.1 Emitter.empty "evt" 0 C9_invariant.1⟩

theorem dispatch_state_noregs {L : Type} (beh : L → LBeh L)
    (h : ∀ l, (beh l).regs = []) :
    ∀ (xs : List L) (st : Emitter L), (dispatchList beh st xs).1 = st
  | [], _ => rfl
  | l :: rest, st => by
    cases hth : (beh l).throws with
    | some msg => simp [dispatchList, hth, h l, Emitter.applyRegs]
    | none =>
      have := dispatch_state_noregs beh h rest (st.applyRegs (beh l).regs)
      rw [h l] at this
      simpa [dispatchList, hth, h l, Emitter.applyRegs] using this

/-- Claim C10: dispatch is a pure read of the registry — when no invoked
listener performs a registration of its own, `emit` returns the registry
state completely unchanged: no key added or removed, no listener array
mutated (this holds even when a listener throws). -/
theorem C10_frame {L : Type} (st : Emitter L) (beh : L → LBeh L) (e : String)
    (h : ∀ l, (beh l).regs = []) :
    (st.emitRun beh e).1 = st := by
  rw [emitRun_eq_dispatch]
  exact dispatch_state_noregs beh h _ st

theorem C10_frame_witness :
    (∀ l : Nat, ((fun _ : Nat => (⟨[], none⟩ : LBeh Nat)) l).regs = []) ∧
    ((((Emitter.empty (L := Nat)).on "evt" 0).emitRun
        (fun _ => (⟨[], none⟩ : LBeh Nat)) "evt").1
      = (Emitter.empty (L := Nat)).on "evt" 0) :=
  ⟨fun _ => rfl,
    C10_frame ((Emitter.empty (L := Nat)).on "evt" 0)
      (fun _ => (⟨[], none⟩ : LBeh Nat)) "evt" (fun _ => rfl)⟩
